import Mathlib

/-!
# Verification of the HR Management System core (app.py)

A shallow embedding of the access-control / persistence core of the Flask
application `app.py`: the JSON store (`read_json_file` / `write_json_file`),
the id allocator, the authentication guards (`login_required`,
`role_required`), and the record-level CRUD handlers for attendance, leaves,
employees, jobs/applicants and login.

Modelling conventions:
* A collection is a `List` of records (Python JSON arrays are ordered).
* A Flask `session` is a record of the four identity fields the app stores;
  `session.get(k)` returning `None`/absent is modelled with `Option`.
* Persistent file state is `JsonFile α`: a file is missing, holds malformed
  text, or holds a well-formed JSON array that parses to a record list.
  `wellFormed` carries the parsed value, i.e. file contents are identified
  up to formatting (json.dump's `indent=2` only changes formatting).
* `bcrypt.checkpw` is an external library call; it is passed in as an
  arbitrary boolean function.
* Python in-place mutation of the first record found by `next(...)`
  followed by rewriting the whole list is modelled by `updateFirst`.
-/

namespace HRApp

/-! ## JSON store (`read_json_file` / `write_json_file`, app.py:64-91) -/

/-- Persistent state of one collection file, identified up to formatting:
`wellFormed rs` is any byte string that `json.load` parses to the record
list `rs`; `malformed c` is content `c` that raises `JSONDecodeError`;
`missing` raises `FileNotFoundError` on open. -/
inductive JsonFile (α : Type) where
  | missing : JsonFile α
  | malformed (content : String) : JsonFile α
  | wellFormed (records : List α) : JsonFile α
deriving DecidableEq, Repr

/-- `read_json_file` (app.py:64-80): return the parsed data, or `[]` when
the file does not exist (`FileNotFoundError`) or its content is invalid
JSON (`JSONDecodeError`). -/
def read_json_file {α : Type} : JsonFile α → List α
  | .missing => []
  | .malformed _ => []
  | .wellFormed rs => rs

/-- `write_json_file` (app.py:82-91): overwrite the file with the dump of
`data` (indent=2, i.e. formatting only). -/
def write_json_file {α : Type} (data : List α) : JsonFile α :=
  .wellFormed data

/-! ## ID allocator

Both allocation sites compute `max([r.get(key, 0) for r in records],
default=0) + 1` (attendance_mark, app.py:291; leave_apply, job_apply) or
`max([r[key] for r in records], default=0) + 1` over records that all carry
the key (employee_add, applicant_onboard).  A record is represented by the
value it holds at the id key, `none` when the key is absent
(`r.get(key, 0)` then yields `0`). -/

/-- `next_id`: the allocator expression shared by every creation handler. -/
def next_id (ids : List (Option Nat)) : Nat :=
  (ids.map (fun i => i.getD 0)).foldl max 0 + 1

/-! ## Session and guards (app.py:132-170) -/

/-- The four identity fields `login` stores in the Flask session.  Each is
`Option`al: `none` models the key being absent (or, for `employee_id`,
stored as `None`), so `session.get(k)` is direct field access. -/
structure Session where
  user_id : Option Nat
  username : Option String
  role : Option String
  employee_id : Option Nat
deriving DecidableEq, Repr

/-- Outcome of running a guarded handler: either a redirect produced by the
guard itself (the wrapped handler was not called) or the handler's result. -/
inductive GuardOutcome (α : Type) where
  | redirectLogin : GuardOutcome α
  | redirectHome : GuardOutcome α
  | proceed (a : α) : GuardOutcome α
deriving DecidableEq, Repr

/-- `login_required` (app.py:132-146): if `'user_id' not in session`,
flash and redirect to login; otherwise run the wrapped handler.  The
handler is an arbitrary state transformer over the collection-file state
`σ`. -/
def login_required {σ α : Type} (f : σ → σ × α) (sess : Session) (st : σ) :
    σ × GuardOutcome α :=
  if sess.user_id = none then (st, .redirectLogin)
  else
    let (st', a) := f st
    (st', .proceed a)

/-- Does `session.get('role')` lie in the given role list?  `None not in
roles` is false in Python, so an absent role never passes. -/
def roleAllowed (role : Option String) (roles : List String) : Prop :=
  match role with
  | some r => r ∈ roles
  | none => False

instance (role : Option String) (roles : List String) :
    Decidable (roleAllowed role roles) := by
  unfold roleAllowed
  cases role <;> infer_instance

/-- `role_required(*roles)` (app.py:148-170): redirect to login when
`'user_id' not in session`; redirect to the home page when
`session.get('role') not in roles`; otherwise run the wrapped handler. -/
def role_required {σ α : Type} (roles : List String) (f : σ → σ × α)
    (sess : Session) (st : σ) : σ × GuardOutcome α :=
  if sess.user_id = none then (st, .redirectLogin)
  else if ¬ roleAllowed sess.role roles then (st, .redirectHome)
  else
    let (st', a) := f st
    (st', .proceed a)

/-! ## Generic list helpers -/

/-- Replace the first element satisfying `p` by its image under `f`; the
model of Python's `next(x for x in xs if p(x))` followed by in-place
mutation of the found object and a rewrite of the whole list. -/
def updateFirst {α : Type} (p : α → Bool) (f : α → α) : List α → List α
  | [] => []
  | x :: xs => if p x then f x :: xs else x :: updateFirst p f xs

/-! ## Record types

Each record type lists the persistent fields the app itself writes.  The
source stores salaries as Python floats parsed from form input; the numeric
value is never computed with by the handlers modelled here, so the raw
submitted string is carried instead. -/

/-- A row of `users.json` as consumed by `login` (app.py:191-221). -/
structure User where
  user_id : Nat
  username : String
  password_hash : String
  role : String
  active : Bool
  employee_id : Option Nat
deriving DecidableEq, Repr

/-- A row of `employees.json` as written by `employee_add`
(app.py:611-633) and `applicant_onboard` (app.py:1089-1133). -/
structure Employee where
  employee_id : Nat
  first_name : String
  last_name : String
  cnic : String
  email : String
  contact : String
  department : String
  designation : String
  join_date : String
  status : String
  salary : String
deriving DecidableEq, Repr

/-- A row of `attendance.json` as written by `attendance_mark`
(app.py:263-327) and `attendance_edit` (app.py:363-386). -/
structure AttendanceRecord where
  attendance_id : Nat
  employee_id : Nat
  date : String
  check_in_time : Option String
  check_out_time : Option String
  notes : String
  status : String
deriving DecidableEq, Repr

/-- A row of `leaves.json` as written by `leave_apply` / `leave_approve` /
`leave_edit` (app.py:438-568). -/
structure LeaveRecord where
  leave_id : Nat
  employee_id : Nat
  leave_type : String
  start_date : String
  end_date : String
  reason : String
  status : String
  applied_date : String
  approved_by : Option Nat
  approved_date : Option String
  comments : Option String
deriving DecidableEq, Repr

/-- The part of a `jobs.json` row the modelled handlers read. -/
structure Job where
  job_id : Nat
  title : String
deriving DecidableEq, Repr

/-- A row of `applicants.json` as written by `job_apply` (app.py:974-1023)
and mutated by `applicant_onboard` (app.py:1089-1133). -/
structure Applicant where
  applicant_id : Nat
  job_id : Nat
  first_name : String
  last_name : String
  email : String
  contact : String
  cnic : String
  experience_years : Nat
  current_company : String
  expected_salary : String
  cover_letter : String
  resume_filename : Option String
  application_date : String
  status : String
  reviewed_by : Option Nat
  review_date : Option String
  interview_date : Option String
  notes : Option String
deriving DecidableEq, Repr

/-- The `(employee_id, date)` key the spec declares unique per attendance
row. -/
def attKey (r : AttendanceRecord) : Nat × String :=
  (r.employee_id, r.date)

/-- The spec's uniqueness invariant on the attendance collection: no two
rows share an `(employee_id, date)` pair. -/
def attKeysNodup (records : List AttendanceRecord) : Prop :=
  (records.map attKey).Nodup

instance (records : List AttendanceRecord) :
    Decidable (attKeysNodup records) := by
  unfold attKeysNodup
  infer_instance

/-- Roles the app treats as privileged: the literal list
`['Admin', 'HR Staff']` that the handlers test membership in. -/
def isPrivilegedRole (role : Option String) : Prop :=
  role = some "Admin" ∨ role = some "HR Staff"

instance (role : Option String) : Decidable (isPrivilegedRole role) := by
  unfold isPrivilegedRole
  infer_instance

/-! ## Login (app.py:191-221) -/

/-- Result of a POST to `/login`: the session after the request, the users
collection after the request (the handler only ever reads it), and whether
authentication succeeded (redirect to index vs. re-rendered form). -/
structure LoginResult where
  session : Session
  users : List User
  success : Bool
deriving DecidableEq, Repr

/-- POST branch of `login` (app.py:191-221): find the first user with the
submitted username; if one exists, is active, and bcrypt accepts the
password against its stored hash, store the four identity fields in the
session; otherwise flash an error and leave the session as it was.
`checkpw` stands for `bcrypt.checkpw`. -/
def login_post (checkpw : String → String → Bool) (users : List User)
    (username password : String) (sess : Session) : LoginResult :=
  match users.find? (fun u => decide (u.username = username)) with
  | some user =>
    if user.active && checkpw password user.password_hash then
      { session := { user_id := some user.user_id,
                     username := some user.username,
                     role := some user.role,
                     employee_id := user.employee_id },
        users := users, success := true }
    else { session := sess, users := users, success := false }
  | none => { session := sess, users := users, success := false }

/-! ## Attendance handlers (app.py:234-402) -/

/-- Body of `attendance_list` (app.py:234-261), guarded by
`login_required`: a caller with role `'Employee'` sees only the rows whose
`employee_id` equals `session.get('employee_id')`; any role outside
`['Admin', 'HR Staff']` is redirected home (`none`); Admin and HR Staff
see every row.  (The employee-name decoration attached for display is a
derived field, not part of the persistent record.) -/
def attendance_list (records : List AttendanceRecord) (role : Option String)
    (cur_eid : Option Nat) : Option (List AttendanceRecord) :=
  if role = some "Employee" then
    some (records.filter (fun r => decide (some r.employee_id = cur_eid)))
  else if ¬ isPrivilegedRole role then none
  else some records

/-- POST branch of `attendance_mark` (app.py:263-327).  `today` and `now`
stand for `datetime.now()`'s date and time strings.  An `'Employee'` caller
marking a different `employee_id` is redirected with no write.  Otherwise
the handler finds today's record for the employee; `action = 'check_in'`
appends a fresh record only when none exists, and any other action is the
check-out branch, which fills `check_out_time` of the existing record only
when it is still null. -/
def attendance_mark (records : List AttendanceRecord) (role : Option String)
    (cur_eid : Option Nat) (employee_id : Nat) (action : String)
    (notes : String) (today now : String) : List AttendanceRecord :=
  if role = some "Employee" ∧ ¬ some employee_id = cur_eid then records
  else
    let today_record := records.find?
      (fun r => decide (r.employee_id = employee_id ∧ r.date = today))
    if action = "check_in" then
      match today_record with
      | some _ => records
      | none =>
        records ++ [{ attendance_id :=
                        next_id (records.map (fun r => some r.attendance_id)),
                      employee_id := employee_id,
                      date := today,
                      check_in_time := some now,
                      check_out_time := none,
                      notes := notes,
                      status := "Present" }]
    else
      match today_record with
      | none => records
      | some r =>
        if r.check_out_time.isSome then records
        else
          updateFirst
            (fun x => decide (x.employee_id = employee_id ∧ x.date = today))
            (fun x => { x with check_out_time := some now,
                               notes := if notes = "" then x.notes else notes })
            records

/-- The form fields a POST to `attendance_edit` submits. -/
structure AttendanceEditForm where
  date : String
  check_in_time : Option String
  check_out_time : Option String
  notes : String
  status : String
deriving DecidableEq, Repr

/-- POST branch of `attendance_edit` (app.py:363-386), guarded by
`role_required('Admin', 'HR Staff')`: find the record with the given id
(redirect untouched when absent) and overwrite its date, times, notes and
status from the form. -/
def attendance_edit (records : List AttendanceRecord) (attendance_id : Nat)
    (form : AttendanceEditForm) : List AttendanceRecord :=
  match records.find? (fun a => decide (a.attendance_id = attendance_id)) with
  | none => records
  | some _ =>
    updateFirst (fun a => decide (a.attendance_id = attendance_id))
      (fun a => { a with date := form.date,
                         check_in_time := form.check_in_time,
                         check_out_time := form.check_out_time,
                         notes := form.notes,
                         status := form.status })
      records

/-- `attendance_delete` (app.py:388-402), guarded by
`role_required('Admin', 'HR Staff')`: when a record with the id exists,
keep exactly the records whose id differs; otherwise flash and leave the
file unwritten. -/
def attendance_delete (records : List AttendanceRecord)
    (attendance_id : Nat) : List AttendanceRecord :=
  match records.find? (fun a => decide (a.attendance_id = attendance_id)) with
  | none => records
  | some _ => records.filter (fun a => decide (¬ a.attendance_id = attendance_id))

/-! ## Leave edit (app.py:527-568) -/

/-- The form fields a POST to `leave_edit` submits. -/
structure LeaveEditForm where
  leave_type : String
  start_date : String
  end_date : String
  reason : String
deriving DecidableEq, Repr

/-- How a POST to `leave_edit` ended. -/
inductive LeaveEditOutcome where
  /-- `leave_id` matches no record: flash + redirect, nothing written. -/
  | notFound : LeaveEditOutcome
  /-- The caller is not Admin/HR Staff and the leave is foreign or not
  `'Pending'`: flash + redirect, nothing written. -/
  | forbidden : LeaveEditOutcome
  /-- The edit was applied and the file rewritten. -/
  | saved : LeaveEditOutcome
  /-- The POST-side status gate refused (not `'Pending'`, caller not
  privileged): flash + redirect, nothing written. -/
  | statusBlocked : LeaveEditOutcome
deriving DecidableEq, Repr

/-- POST branch of `leave_edit` (app.py:527-568), guarded by
`login_required`.  A non-privileged caller may only edit their own
`'Pending'` leaves.  On success the four form fields overwrite the record
in place, and a non-privileged edit additionally resets the three approval
fields. -/
def leave_edit (leaves : List LeaveRecord) (role : Option String)
    (cur_eid : Option Nat) (leave_id : Nat) (form : LeaveEditForm) :
    List LeaveRecord × LeaveEditOutcome :=
  match leaves.find? (fun l => decide (l.leave_id = leave_id)) with
  | none => (leaves, .notFound)
  | some leave =>
    if ¬ isPrivilegedRole role ∧
        (¬ some leave.employee_id = cur_eid ∨ ¬ leave.status = "Pending") then
      (leaves, .forbidden)
    else if leave.status = "Pending" ∨ isPrivilegedRole role then
      (updateFirst (fun l => decide (l.leave_id = leave_id))
        (fun l =>
          let l' := { l with leave_type := form.leave_type,
                             start_date := form.start_date,
                             end_date := form.end_date,
                             reason := form.reason }
          if ¬ isPrivilegedRole role then
            { l' with approved_by := none, approved_date := none,
                      comments := none }
          else l')
        leaves, .saved)
    else (leaves, .statusBlocked)

/-! ## Employee handlers (app.py:611-686) -/

/-- The form fields a POST to `employee_add` submits. -/
structure EmployeeForm where
  first_name : String
  last_name : String
  cnic : String
  email : String
  contact : String
  department : String
  designation : String
  join_date : String
  status : String
  salary : String
deriving DecidableEq, Repr

/-- POST branch of `employee_add` (app.py:611-633), guarded by
`role_required('Admin', 'HR Staff')`: allocate
`max(employee ids, default=0) + 1` and append the new record. -/
def employee_add (employees : List Employee) (form : EmployeeForm) :
    List Employee :=
  employees ++
    [{ employee_id := next_id (employees.map (fun e => some e.employee_id)),
       first_name := form.first_name,
       last_name := form.last_name,
       cnic := form.cnic,
       email := form.email,
       contact := form.contact,
       department := form.department,
       designation := form.designation,
       join_date := form.join_date,
       status := form.status,
       salary := form.salary }]

/-- `employee_delete` (app.py:672-686), guarded by
`role_required('Admin', 'HR Staff')`: when a record with the id exists,
keep exactly the records whose id differs; otherwise leave the file
unwritten. -/
def employee_delete (employees : List Employee) (employee_id : Nat) :
    List Employee :=
  match employees.find? (fun e => decide (e.employee_id = employee_id)) with
  | none => employees
  | some _ => employees.filter (fun e => decide (¬ e.employee_id = employee_id))

/-! ## Recruitment handlers (app.py:974-1133) -/

/-- The form fields a POST to `job_apply` submits. -/
structure ApplicantForm where
  first_name : String
  last_name : String
  email : String
  contact : String
  cnic : String
  experience_years : Nat
  current_company : String
  expected_salary : String
  cover_letter : String
deriving DecidableEq, Repr

/-- Outcome of the resume-upload step of `job_apply` (app.py:988-995):
no file submitted, file saved under the given name, or the extension was
rejected by `save_uploaded_file`. -/
inductive ResumeUpload where
  | noFile : ResumeUpload
  | saved (filename : String) : ResumeUpload
  | invalid : ResumeUpload
deriving DecidableEq, Repr

/-- How a POST to `job_apply` ended. -/
inductive JobApplyOutcome where
  /-- `job_id` matches no posting: flash + redirect home, nothing written. -/
  | jobNotFound : JobApplyOutcome
  /-- The resume extension was rejected: form re-rendered, nothing written. -/
  | invalidFile : JobApplyOutcome
  /-- The application was appended and the file rewritten. -/
  | submitted : JobApplyOutcome
deriving DecidableEq, Repr

/-- POST branch of `job_apply` (app.py:974-1023): require an existing job
posting, require the resume (when provided) to save, then append a fresh
applicant with status `'Applied'` and the empty review fields. -/
def job_apply (jobs : List Job) (applicants : List Applicant) (job_id : Nat)
    (form : ApplicantForm) (resume : ResumeUpload) (today : String) :
    List Applicant × JobApplyOutcome :=
  match jobs.find? (fun j => decide (j.job_id = job_id)) with
  | none => (applicants, .jobNotFound)
  | some _ =>
    match resume with
    | .invalid => (applicants, .invalidFile)
    | r =>
      (applicants ++
        [{ applicant_id :=
             next_id (applicants.map (fun a => some a.applicant_id)),
           job_id := job_id,
           first_name := form.first_name,
           last_name := form.last_name,
           email := form.email,
           contact := form.contact,
           cnic := form.cnic,
           experience_years := form.experience_years,
           current_company := form.current_company,
           expected_salary := form.expected_salary,
           cover_letter := form.cover_letter,
           resume_filename := match r with
             | .saved fn => some fn
             | _ => none,
           application_date := today,
           status := "Applied",
           reviewed_by := none,
           review_date := none,
           interview_date := none,
           notes := none }], .submitted)

/-- The form fields a POST to `applicant_onboard` submits. -/
structure OnboardForm where
  department : String
  designation : String
  join_date : String
  salary : String
deriving DecidableEq, Repr

/-- The `new_employee` record `applicant_onboard` builds
(app.py:1103-1115): name and contact fields copied from the applicant,
placement fields from the form, a freshly allocated id, status
`'Active'`. -/
def onboard_new_employee (applicant : Applicant)
    (employees : List Employee) (form : OnboardForm) : Employee :=
  { employee_id := next_id (employees.map (fun e => some e.employee_id)),
    first_name := applicant.first_name,
    last_name := applicant.last_name,
    cnic := applicant.cnic,
    email := applicant.email,
    contact := applicant.contact,
    department := form.department,
    designation := form.designation,
    join_date := form.join_date,
    status := "Active",
    salary := form.salary }

/-- The in-place applicant update at the end of `applicant_onboard`
(app.py:1120-1122): status `'Hired'` and a note recording the hire. -/
def onboardHire (new_employee : Employee) (a : Applicant) : Applicant :=
  { a with
    status := "Hired",
    notes := some ("Hired as " ++ new_employee.designation ++ " in " ++
      new_employee.department ++ " department. Employee ID: " ++
      toString new_employee.employee_id) }

/-- POST branch of `applicant_onboard` (app.py:1089-1133), guarded by
`role_required('Admin', 'HR Staff')`: find the applicant (`none` models
the not-found redirect), append the new employee copied from the
applicant, then set the applicant's status to `'Hired'`. -/
def applicant_onboard (applicants : List Applicant)
    (employees : List Employee) (applicant_id : Nat) (form : OnboardForm) :
    Option (List Applicant × List Employee) :=
  match applicants.find? (fun a => decide (a.applicant_id = applicant_id)) with
  | none => none
  | some applicant =>
    some
      (updateFirst (fun a => decide (a.applicant_id = applicant_id))
        (onboardHire (onboard_new_employee applicant employees form))
        applicants,
       employees ++ [onboard_new_employee applicant employees form])

/-! ## Helper lemmas -/

theorem updateFirst_of_find?_eq_some {α : Type} {p : α → Bool} {l : List α}
    {a : α} (f : α → α) (h : l.find? p = some a) :
    ∃ l1 l2, l = l1 ++ a :: l2 ∧ (∀ x ∈ l1, p x = false) ∧
      updateFirst p f l = l1 ++ f a :: l2 := by
  induction l with
  | nil => simp [List.find?] at h
  | cons x xs ih =>
    by_cases hx : p x
    · rw [List.find?_cons_of_pos _ hx] at h
      cases h
      exact ⟨[], xs, rfl, by simp, by simp [updateFirst, hx]⟩
    · rw [List.find?_cons_of_neg _ hx] at h
      obtain ⟨l1, l2, hsplit, hl1, hupd⟩ := ih h
      refine ⟨x :: l1, l2, by simp [hsplit], ?_, ?_⟩
      · intro y hy
        rcases List.mem_cons.mp hy with rfl | hy
        · exact Bool.of_not_eq_true hx
        · exact hl1 y hy
      · simp [updateFirst, hx, hupd]

theorem map_updateFirst_of_preserves {α β : Type} (p : α → Bool)
    (f : α → α) (g : α → β) (l : List α)
    (h : ∀ a, p a = true → g (f a) = g a) :
    (updateFirst p f l).map g = l.map g := by
  induction l with
  | nil => rfl
  | cons x xs ih =>
    by_cases hx : p x
    · simp [updateFirst, hx, h x hx]
    · simp [updateFirst, hx, ih]

theorem foldl_max_spec (l : List Nat) (a : Nat) :
    (∀ x ∈ l, x ≤ l.foldl max a) ∧ a ≤ l.foldl max a ∧
      (l.foldl max a = a ∨ l.foldl max a ∈ l) := by
  induction l generalizing a with
  | nil => simp
  | cons x xs ih =>
    simp only [List.foldl_cons]
    obtain ⟨h1, h2, h3⟩ := ih (max a x)
    refine ⟨?_, ?_, ?_⟩
    · intro y hy
      rcases List.mem_cons.mp hy with rfl | hy
      · exact le_trans (le_max_right a y) h2
      · exact h1 y hy
    · exact le_trans (le_max_left a x) h2
    · rcases h3 with h | h
      · rcases max_cases a x with ⟨he, _⟩ | ⟨he, _⟩
        · left
          rw [h, he]
        · right
          rw [h, he]
          exact List.mem_cons_self x xs
      · right
        exact List.mem_cons_of_mem x h

/-! ## C1: guard failures redirect without invoking the handler -/

/-- C1: for a route guarded by `role_required(roles)`, a session with no
`user_id` is redirected to the login page (as is any `login_required`
route) and a session whose role is not among `roles` is redirected to the
home page; in both cases the wrapped handler's state transformer is not
applied, so the collection-file state `st` is returned unchanged. -/
theorem role_required_guard_failures {σ α : Type} (roles : List String)
    (f : σ → σ × α) (sess : Session) (st : σ) :
    (sess.user_id = none →
      role_required roles f sess st = (st, .redirectLogin) ∧
      login_required f sess st = (st, .redirectLogin)) ∧
    (∀ uid, sess.user_id = some uid → ¬ roleAllowed sess.role roles →
      role_required roles f sess st = (st, .redirectHome)) := by
  constructor
  · intro h
    constructor
    · simp [role_required, h]
    · simp [login_required, h]
  · intro uid huid hrole
    simp [role_required, huid, hrole]

/-- Witness for C1: an anonymous session hits the login redirect, and an
authenticated `'Employee'` session hits the home redirect on an
Admin-only route; the state (here a bare counter) is untouched even
though the handler would increment it. -/
theorem role_required_guard_failures_witness :
    role_required ["Admin"] (fun n : Nat => (n + 1, 0))
      ⟨none, none, none, none⟩ 5 = (5, .redirectLogin) ∧
    role_required ["Admin"] (fun n : Nat => (n + 1, 0))
      ⟨some 1, some "u", some "Employee", some 2⟩ 5 = (5, .redirectHome) := by
  constructor
  · exact ((role_required_guard_failures ["Admin"] (fun n : Nat => (n + 1, 0))
      ⟨none, none, none, none⟩ 5).1 rfl).1
  · exact (role_required_guard_failures ["Admin"] (fun n : Nat => (n + 1, 0))
      ⟨some 1, some "u", some "Employee", some 2⟩ 5).2 1 rfl (by decide)

/-! ## C5: the id allocator -/

/-- C5: `next_id` returns `1` on the empty collection, `8` on
`[{id: 3}, {id: 7}]`, and in general `m + 1` where `m` is the maximum of
the stored id values (a record without the id key contributing `0`, and
`m = 0` on the empty collection); the record appended by `employee_add`
carries exactly the id `next_id` allocates from the existing ids. -/
theorem next_id_spec :
    next_id ([] : List (Option Nat)) = 1 ∧
    next_id [some 3, some 7] = 8 ∧
    (∀ ids : List (Option Nat), ∃ m,
      next_id ids = m + 1 ∧
      (∀ i ∈ ids, i.getD 0 ≤ m) ∧
      (m = 0 ∨ ∃ i ∈ ids, i.getD 0 = m)) ∧
    (∀ employees form, ∃ e,
      employee_add employees form = employees ++ [e] ∧
      e.employee_id = next_id (employees.map (fun x => some x.employee_id))) := by
  refine ⟨rfl, by decide, ?_, ?_⟩
  · intro ids
    refine ⟨(ids.map (fun i : Option Nat => i.getD 0)).foldl max 0, rfl, ?_, ?_⟩
    · intro i hi
      exact (foldl_max_spec _ 0).1 _ (List.mem_map_of_mem _ hi)
    · rcases (foldl_max_spec (ids.map (fun i => i.getD 0)) 0).2.2 with h | h
      · exact Or.inl h
      · obtain ⟨i, hi, he⟩ := List.mem_map.mp h
        exact Or.inr ⟨i, hi, he⟩
  · intro employees form
    exact ⟨_, rfl, rfl⟩

/-- Witness for C5: the allocator over `[{id: 5}, {missing}]` yields
`m + 1` with `5 ≤ m`, instantiating the bound at a concrete record. -/
theorem next_id_spec_witness :
    ∃ m, next_id [some 5, none] = m + 1 ∧ (some 5 : Option Nat).getD 0 ≤ m := by
  obtain ⟨m, h1, h2, _⟩ := next_id_spec.2.2.1 [some 5, none]
  exact ⟨m, h1, h2 (some 5) (by simp)⟩

/-! ## C6: the JSON store read path -/

/-- C6: `read_json_file` returns the parsed record sequence of a
well-formed file and the empty sequence for a missing or malformed file;
as a total Lean function it raises nothing. -/
theorem read_json_file_spec (α : Type) (c : String) (rs : List α) :
    read_json_file (JsonFile.missing : JsonFile α) = [] ∧
    read_json_file (JsonFile.malformed c : JsonFile α) = [] ∧
    read_json_file (JsonFile.wellFormed rs) = rs :=
  ⟨rfl, rfl, rfl⟩

/-! ## C7: save-after-load round trip -/

/-- Counterexample to C7: on a file whose content is malformed JSON,
`write_json_file (read_json_file X)` replaces the content with the empty
array — the stored content is changed, not merely reformatted. -/
theorem save_load_roundtrip_counterexample :
    write_json_file
        (read_json_file (JsonFile.malformed "oops, not JSON" : JsonFile Nat)) ≠
      JsonFile.malformed "oops, not JSON" := by
  decide

/-- C7 amended: `save(load(X))` leaves the stored content unchanged up to
formatting when `X` exists and is well-formed; when `X` is missing or
malformed it instead writes the empty array, discarding the previous
content. -/
theorem save_load_roundtrip_amended (α : Type) (rs : List α) (c : String) :
    write_json_file (read_json_file (JsonFile.wellFormed rs)) =
      JsonFile.wellFormed rs ∧
    write_json_file (read_json_file (JsonFile.malformed c : JsonFile α)) =
      JsonFile.wellFormed [] ∧
    write_json_file (read_json_file (JsonFile.missing : JsonFile α)) =
      JsonFile.wellFormed [] :=
  ⟨rfl, rfl, rfl⟩

/-! ## C2: attendance listing respects the ownership filter -/

/-- C2: an authenticated `'Employee'` session listing attendance gets
exactly the records whose `employee_id` equals the session's
`employee_id`, as a subsequence of the collection (original order); an
`'Admin'` session gets every record. -/
theorem attendance_list_spec (records : List AttendanceRecord) (eid : Nat)
    (cur : Option Nat) :
    (∃ out, attendance_list records (some "Employee") (some eid) = some out ∧
      out.Sublist records ∧
      ∀ r, r ∈ out ↔ r ∈ records ∧ r.employee_id = eid) ∧
    attendance_list records (some "Admin") cur = some records := by
  constructor
  · have h : attendance_list records (some "Employee") (some eid) =
        some (records.filter (fun r => decide (some r.employee_id = some eid))) := by
      simp [attendance_list]
    refine ⟨_, h, List.filter_sublist _, ?_⟩
    intro r
    simp [List.mem_filter]
  · simp [attendance_list, isPrivilegedRole]

/-- Witness for C2: with two records owned by employees 1 and 2, the
employee-1 session sees its own record. -/
theorem attendance_list_spec_witness :
    ∃ out,
      attendance_list
        [⟨1, 1, "2025-01-01", some "09:00:00", none, "", "Present"⟩,
         ⟨2, 2, "2025-01-01", some "09:05:00", none, "", "Present"⟩]
        (some "Employee") (some 1) = some out ∧
      (⟨1, 1, "2025-01-01", some "09:00:00", none, "", "Present"⟩ :
        AttendanceRecord) ∈ out := by
  obtain ⟨out, hout, _, hmem⟩ :=
    (attendance_list_spec
      [⟨1, 1, "2025-01-01", some "09:00:00", none, "", "Present"⟩,
       ⟨2, 2, "2025-01-01", some "09:05:00", none, "", "Present"⟩] 1 none).1
  exact ⟨out, hout, (hmem _).mpr ⟨by simp, rfl⟩⟩

/-! ## C8: delete removes exactly the matching record -/

/-- C8: when the target id occurs exactly once, `attendance_delete` and
`employee_delete` remove exactly that record, leaving every other record
(fields and relative order) intact; when the id is absent the collection
is returned unchanged. -/
theorem delete_by_id_spec (aid : Nat) :
    (∀ (l1 l2 : List AttendanceRecord) (r : AttendanceRecord),
      r.attendance_id = aid → (∀ x ∈ l1 ++ l2, x.attendance_id ≠ aid) →
      attendance_delete (l1 ++ r :: l2) aid = l1 ++ l2) ∧
    (∀ records : List AttendanceRecord,
      (∀ x ∈ records, x.attendance_id ≠ aid) →
      attendance_delete records aid = records) ∧
    (∀ (l1 l2 : List Employee) (r : Employee),
      r.employee_id = aid → (∀ x ∈ l1 ++ l2, x.employee_id ≠ aid) →
      employee_delete (l1 ++ r :: l2) aid = l1 ++ l2) ∧
    (∀ records : List Employee,
      (∀ x ∈ records, x.employee_id ≠ aid) →
      employee_delete records aid = records) := by
  refine ⟨?_, ?_, ?_, ?_⟩
  · intro l1 l2 r hr hothers
    cases hfind : (l1 ++ r :: l2).find?
        (fun a => decide (a.attendance_id = aid)) with
    | none =>
      exact absurd (by simpa using List.find?_eq_none.mp hfind r (by simp)) (by simp [hr])
    | some a =>
      unfold attendance_delete
      rw [hfind]
      rw [List.filter_append, List.filter_cons]
      have hl1 : l1.filter (fun a => !decide (a.attendance_id = aid)) = l1 :=
        List.filter_eq_self.mpr (fun x hx => by
          simpa using hothers x (List.mem_append_left _ hx))
      have hl2 : l2.filter (fun a => !decide (a.attendance_id = aid)) = l2 :=
        List.filter_eq_self.mpr (fun x hx => by
          simpa using hothers x (List.mem_append_right _ hx))
      simp [hr, hl1, hl2]
  · intro records habsent
    have hfind : records.find? (fun a => decide (a.attendance_id = aid)) = none :=
      List.find?_eq_none.mpr (fun x hx => by simpa using habsent x hx)
    unfold attendance_delete
    rw [hfind]
  · intro l1 l2 r hr hothers
    cases hfind : (l1 ++ r :: l2).find?
        (fun e => decide (e.employee_id = aid)) with
    | none =>
      exact absurd (by simpa using List.find?_eq_none.mp hfind r (by simp)) (by simp [hr])
    | some a =>
      unfold employee_delete
      rw [hfind]
      rw [List.filter_append, List.filter_cons]
      have hl1 : l1.filter (fun e => !decide (e.employee_id = aid)) = l1 :=
        List.filter_eq_self.mpr (fun x hx => by
          simpa using hothers x (List.mem_append_left _ hx))
      have hl2 : l2.filter (fun e => !decide (e.employee_id = aid)) = l2 :=
        List.filter_eq_self.mpr (fun x hx => by
          simpa using hothers x (List.mem_append_right _ hx))
      simp [hr, hl1, hl2]
  · intro records habsent
    have hfind : records.find? (fun e => decide (e.employee_id = aid)) = none :=
      List.find?_eq_none.mpr (fun x hx => by simpa using habsent x hx)
    unfold employee_delete
    rw [hfind]

/-- Witness for C8: deleting id 2 from a three-record attendance
collection removes the middle record only, and deleting an absent id is a
no-op. -/
theorem delete_by_id_spec_witness :
    attendance_delete
        [⟨1, 1, "2025-01-01", some "09:00:00", none, "", "Present"⟩,
         ⟨2, 1, "2025-01-02", some "09:00:00", none, "", "Present"⟩,
         ⟨3, 2, "2025-01-01", some "09:00:00", none, "", "Present"⟩] 2 =
      [⟨1, 1, "2025-01-01", some "09:00:00", none, "", "Present"⟩,
       ⟨3, 2, "2025-01-01", some "09:00:00", none, "", "Present"⟩] ∧
    attendance_delete
        [⟨1, 1, "2025-01-01", some "09:00:00", none, "", "Present"⟩] 9 =
      [⟨1, 1, "2025-01-01", some "09:00:00", none, "", "Present"⟩] := by
  constructor
  · exact (delete_by_id_spec 2).1
      [⟨1, 1, "2025-01-01", some "09:00:00", none, "", "Present"⟩]
      [⟨3, 2, "2025-01-01", some "09:00:00", none, "", "Present"⟩]
      ⟨2, 1, "2025-01-02", some "09:00:00", none, "", "Present"⟩
      rfl (by decide)
  · exact (delete_by_id_spec 9).2.1
      [⟨1, 1, "2025-01-01", some "09:00:00", none, "", "Present"⟩]
      (by decide)

/-! ## C10: login establishes a session only on full credential success -/

/-- C10: a POST to `/login` installs the identity fields
`(user_id, username, role, employee_id)` exactly when the first user
record with the submitted username exists, is active, and bcrypt accepts
the password against its stored hash; in every other case the session is
left exactly as it was.  The users collection is never written, success or
not. -/
theorem login_post_spec (checkpw : String → String → Bool)
    (users : List User) (username password : String) (sess : Session) :
    (∀ u, users.find? (fun x => decide (x.username = username)) = some u →
      (u.active = true → checkpw password u.password_hash = true →
        login_post checkpw users username password sess =
          { session := { user_id := some u.user_id,
                         username := some u.username,
                         role := some u.role,
                         employee_id := u.employee_id },
            users := users, success := true }) ∧
      (¬ (u.active = true ∧ checkpw password u.password_hash = true) →
        login_post checkpw users username password sess =
          { session := sess, users := users, success := false })) ∧
    (users.find? (fun x => decide (x.username = username)) = none →
      login_post checkpw users username password sess =
        { session := sess, users := users, success := false }) ∧
    (login_post checkpw users username password sess).users = users := by
  refine ⟨?_, ?_, ?_⟩
  · intro u hfind
    constructor
    · intro hactive hpw
      unfold login_post
      rw [hfind]
      simp [hactive, hpw]
    · intro hfail
      unfold login_post
      rw [hfind]
      have : ¬ (u.active && checkpw password u.password_hash) = true := by
        simpa [Bool.and_eq_true] using hfail
      simp [this]
  · intro hfind
    unfold login_post
    rw [hfind]
  · unfold login_post
    cases hfind : users.find? (fun x => decide (x.username = username)) with
    | none => rfl
    | some u => by_cases h : (u.active && checkpw password u.password_hash) = true <;> simp [h]

/-- Witness for C10: with string-equality standing in for the bcrypt
check, the active stored user logs in and a wrong password leaves the
session untouched. -/
theorem login_post_spec_witness :
    login_post (fun p h => decide (p = h))
        [⟨7, "alice", "pw", "Admin", true, some 3⟩] "alice" "pw"
        ⟨none, none, none, none⟩ =
      { session := ⟨some 7, some "alice", some "Admin", some 3⟩,
        users := [⟨7, "alice", "pw", "Admin", true, some 3⟩],
        success := true } ∧
    login_post (fun p h => decide (p = h))
        [⟨7, "alice", "pw", "Admin", true, some 3⟩] "alice" "wrong"
        ⟨none, none, none, none⟩ =
      { session := ⟨none, none, none, none⟩,
        users := [⟨7, "alice", "pw", "Admin", true, some 3⟩],
        success := false } := by
  constructor
  · exact ((login_post_spec (fun p h => decide (p = h))
      [⟨7, "alice", "pw", "Admin", true, some 3⟩] "alice" "pw"
      ⟨none, none, none, none⟩).1
      ⟨7, "alice", "pw", "Admin", true, some 3⟩ (by decide)).1 rfl (by decide)
  · exact ((login_post_spec (fun p h => decide (p = h))
      [⟨7, "alice", "pw", "Admin", true, some 3⟩] "alice" "wrong"
      ⟨none, none, none, none⟩).1
      ⟨7, "alice", "pw", "Admin", true, some 3⟩ (by decide)).2 (by decide)

/-! ## C3: the status gate on editing an approved leave -/

/-- C3: for a leave whose status is `'Approved'`, a POST to `leave_edit`
by an `'Employee'` caller — even the record's owner — is refused with a
redirect and the collection is returned unchanged, while the same POST by
an `'HR Staff'` caller replaces the record in place with the form's four
fields, all other fields (id, owner, status, approval data) untouched. -/
theorem leave_edit_approved_spec (leaves : List LeaveRecord) (lid : Nat)
    (form : LeaveEditForm) (cur : Option Nat) (leave : LeaveRecord)
    (hfind : leaves.find? (fun l => decide (l.leave_id = lid)) = some leave)
    (hstatus : leave.status = "Approved") :
    leave_edit leaves (some "Employee") (some leave.employee_id) lid form =
      (leaves, .forbidden) ∧
    ∃ l1 l2 r, leaves = l1 ++ leave :: l2 ∧
      leave_edit leaves (some "HR Staff") cur lid form =
        (l1 ++ r :: l2, .saved) ∧
      r.leave_type = form.leave_type ∧ r.start_date = form.start_date ∧
      r.end_date = form.end_date ∧ r.reason = form.reason ∧
      r.leave_id = leave.leave_id ∧ r.employee_id = leave.employee_id ∧
      r.status = leave.status ∧ r.applied_date = leave.applied_date ∧
      r.approved_by = leave.approved_by ∧
      r.approved_date = leave.approved_date ∧
      r.comments = leave.comments := by
  constructor
  · unfold leave_edit
    rw [hfind]
    have hpend : ¬ leave.status = "Pending" := by simp [hstatus]
    simp [isPrivilegedRole, hpend]
  · obtain ⟨l1, l2, hsplit, -, hupd⟩ :=
      updateFirst_of_find?_eq_some
        (fun l =>
          let l' := { l with leave_type := form.leave_type,
                             start_date := form.start_date,
                             end_date := form.end_date,
                             reason := form.reason }
          if ¬ isPrivilegedRole (some "HR Staff") then
            { l' with approved_by := none, approved_date := none,
                      comments := none }
          else l')
        hfind
    refine ⟨l1, l2,
      { leave with leave_type := form.leave_type,
                   start_date := form.start_date,
                   end_date := form.end_date,
                   reason := form.reason },
      hsplit, ?_, rfl, rfl, rfl, rfl, rfl, rfl, rfl, rfl, rfl, rfl, rfl⟩
    have hpriv : isPrivilegedRole (some "HR Staff") := Or.inr rfl
    unfold leave_edit
    rw [hfind]
    simp [hpriv] at hupd
    simp [hpriv, hupd]

/-- Witness for C3: on a one-record collection holding an approved leave,
the owning employee's edit is refused while the HR edit goes through. -/
theorem leave_edit_approved_spec_witness :
    leave_edit
        [⟨1, 2, "Annual", "2025-02-01", "2025-02-03", "trip", "Approved",
          "2025-01-20", some 9, some "2025-01-21", some "ok"⟩]
        (some "Employee") (some 2) 1 ⟨"Sick", "2025-02-05", "2025-02-06", "ill"⟩ =
      ([⟨1, 2, "Annual", "2025-02-01", "2025-02-03", "trip", "Approved",
          "2025-01-20", some 9, some "2025-01-21", some "ok"⟩],
        .forbidden) ∧
    ∃ l1 l2 r,
      leave_edit
          [⟨1, 2, "Annual", "2025-02-01", "2025-02-03", "trip", "Approved",
            "2025-01-20", some 9, some "2025-01-21", some "ok"⟩]
          (some "HR Staff") (some 5) 1
          ⟨"Sick", "2025-02-05", "2025-02-06", "ill"⟩ =
        (l1 ++ r :: l2, .saved) ∧
      r.leave_type = "Sick" ∧ r.status = "Approved" := by
  obtain ⟨h1, l1, l2, r, -, h2, hty, -, -, -, -, -, hst, -⟩ :=
    leave_edit_approved_spec
      [⟨1, 2, "Annual", "2025-02-01", "2025-02-03", "trip", "Approved",
        "2025-01-20", some 9, some "2025-01-21", some "ok"⟩]
      1 ⟨"Sick", "2025-02-05", "2025-02-06", "ill"⟩ (some 5)
      ⟨1, 2, "Annual", "2025-02-01", "2025-02-03", "trip", "Approved",
        "2025-01-20", some 9, some "2025-01-21", some "ok"⟩
      (by decide) rfl
  exact ⟨h1, l1, l2, r, h2, hty, by rw [hst]⟩

/-! ## C9: the application / onboarding pipeline -/

/-- C9: applying to an existing job appends a fresh applicant whose status
is `'Applied'`; onboarding an applicant via POST appends exactly one new
employee whose `first_name`, `last_name`, `cnic`, `email` and `contact`
are copied from the applicant, and replaces the applicant in place with
status `'Hired'`. -/
theorem recruitment_pipeline_spec :
    (∀ (jobs : List Job) (applicants : List Applicant) (job_id : Nat)
        (form : ApplicantForm) (resume : ResumeUpload) (today : String)
        (job : Job),
      jobs.find? (fun j => decide (j.job_id = job_id)) = some job →
      resume ≠ ResumeUpload.invalid →
      ∃ a, job_apply jobs applicants job_id form resume today =
          (applicants ++ [a], .submitted) ∧
        a.status = "Applied" ∧ a.job_id = job_id ∧
        a.first_name = form.first_name ∧ a.last_name = form.last_name ∧
        a.cnic = form.cnic ∧ a.email = form.email ∧
        a.contact = form.contact) ∧
    (∀ (applicants : List Applicant) (employees : List Employee)
        (aid : Nat) (form : OnboardForm) (applicant : Applicant),
      applicants.find? (fun a => decide (a.applicant_id = aid)) =
        some applicant →
      ∃ e l1 l2 hired,
        applicant_onboard applicants employees aid form =
          some (l1 ++ hired :: l2, employees ++ [e]) ∧
        applicants = l1 ++ applicant :: l2 ∧
        e.first_name = applicant.first_name ∧
        e.last_name = applicant.last_name ∧
        e.cnic = applicant.cnic ∧
        e.email = applicant.email ∧
        e.contact = applicant.contact ∧
        e.status = "Active" ∧
        hired.status = "Hired" ∧
        hired.applicant_id = applicant.applicant_id ∧
        hired.job_id = applicant.job_id ∧
        hired.first_name = applicant.first_name ∧
        hired.last_name = applicant.last_name) := by
  constructor
  · intro jobs applicants job_id form resume today job hfind hres
    unfold job_apply
    rw [hfind]
    cases resume with
    | invalid => exact absurd rfl hres
    | noFile => exact ⟨_, rfl, rfl, rfl, rfl, rfl, rfl, rfl, rfl⟩
    | saved fn => exact ⟨_, rfl, rfl, rfl, rfl, rfl, rfl, rfl, rfl⟩
  · intro applicants employees aid form applicant hfind
    obtain ⟨l1, l2, hsplit, -, hupd⟩ :=
      updateFirst_of_find?_eq_some
        (onboardHire (onboard_new_employee applicant employees form)) hfind
    refine ⟨onboard_new_employee applicant employees form, l1, l2,
      onboardHire (onboard_new_employee applicant employees form) applicant,
      ?_, hsplit, rfl, rfl, rfl, rfl, rfl, rfl, rfl, rfl, rfl, rfl, rfl⟩
    unfold applicant_onboard
    rw [hfind]
    simp only [hupd]

/-- Witness for C9: a concrete applicant to job 5 is appended as
`'Applied'`, then onboarded into a copied employee record. -/
theorem recruitment_pipeline_spec_witness :
    (∃ a, job_apply [⟨5, "Engineer"⟩] [] 5
        ⟨"Bea", "Khan", "b@x.pk", "0300", "35202", 3, "Acme", "90000", "hi"⟩
        .noFile "2025-10-01" = ([a], .submitted) ∧ a.status = "Applied") ∧
    (∃ e l1 l2 hired,
      applicant_onboard
          [⟨1, 5, "Bea", "Khan", "b@x.pk", "0300", "35202", 3, "Acme",
            "90000", "hi", none, "2025-10-01", "Applied", none, none, none,
            none⟩]
          [] 1 ⟨"IT", "Dev", "2025-10-10", "95000"⟩ =
        some (l1 ++ hired :: l2, [e]) ∧
      e.first_name = "Bea" ∧ hired.status = "Hired") := by
  constructor
  · obtain ⟨a, h1, h2, -⟩ := recruitment_pipeline_spec.1 [⟨5, "Engineer"⟩] [] 5
      ⟨"Bea", "Khan", "b@x.pk", "0300", "35202", 3, "Acme", "90000", "hi"⟩
      .noFile "2025-10-01" ⟨5, "Engineer"⟩ (by decide) (by decide)
    exact ⟨a, h1, h2⟩
  · obtain ⟨e, l1, l2, hired, h1, -, hfn, -, -, -, -, -, hst, -, -, -, -⟩ :=
      recruitment_pipeline_spec.2
        [⟨1, 5, "Bea", "Khan", "b@x.pk", "0300", "35202", 3, "Acme",
          "90000", "hi", none, "2025-10-01", "Applied", none, none, none,
          none⟩]
        [] 1 ⟨"IT", "Dev", "2025-10-10", "95000"⟩
        ⟨1, 5, "Bea", "Khan", "b@x.pk", "0300", "35202", 3, "Acme",
          "90000", "hi", none, "2025-10-01", "Applied", none, none, none,
          none⟩ (by decide)
    exact ⟨e, l1, l2, hired, h1, hfn, hst⟩

/-! ## C4: uniqueness of (employee_id, date) across attendance operations -/

/-- Counterexample to C4: from a collection where each
`(employee_id, date)` pair occurs once, `attendance_edit` with a form date
equal to another record's date for the same employee produces a duplicate
pair — the edit handler performs no duplicate check on the submitted
date. -/
theorem attendance_unique_counterexample :
    attKeysNodup
        [⟨1, 1, "2025-01-01", some "09:00:00", none, "", "Present"⟩,
         ⟨2, 1, "2025-01-02", some "09:00:00", none, "", "Present"⟩] ∧
    ¬ attKeysNodup
        (attendance_edit
          [⟨1, 1, "2025-01-01", some "09:00:00", none, "", "Present"⟩,
           ⟨2, 1, "2025-01-02", some "09:00:00", none, "", "Present"⟩]
          2 ⟨"2025-01-01", some "09:00:00", none, "", "Present"⟩) := by
  decide

/-- C4 amended: `attendance_mark` (both the check-in and the check-out
action, any caller) and `attendance_delete` preserve the uniqueness of
`(employee_id, date)`; `attendance_edit` preserves it only under the
additional assumptions that record ids are unique and that no other
record of the same employee already carries the submitted date. -/
theorem attendance_unique_amended :
    (∀ (records : List AttendanceRecord) (role : Option String)
        (cur : Option Nat) (eid : Nat) (action notes today now : String),
      attKeysNodup records →
      attKeysNodup (attendance_mark records role cur eid action notes today now)) ∧
    (∀ (records : List AttendanceRecord) (aid : Nat),
      attKeysNodup records → attKeysNodup (attendance_delete records aid)) ∧
    (∀ (records : List AttendanceRecord) (aid : Nat)
        (form : AttendanceEditForm),
      attKeysNodup records →
      (records.map (fun r => r.attendance_id)).Nodup →
      (∀ a ∈ records, a.attendance_id = aid →
        ∀ b ∈ records, ¬ b.attendance_id = aid →
        ¬ (b.employee_id = a.employee_id ∧ b.date = form.date)) →
      attKeysNodup (attendance_edit records aid form)) := by
  refine ⟨?_, ?_, ?_⟩
  · intro records role cur eid action notes today now h
    unfold attendance_mark
    split
    · exact h
    · dsimp only
      split
      · -- check-in
        split
        · exact h
        · -- no record today yet: a fresh row is appended
          rename_i heq
          have hfind := List.find?_eq_none.mp heq
          unfold attKeysNodup at h ⊢
          rw [List.map_append]
          refine List.Nodup.append h (List.nodup_singleton _) ?_
          intro x hx hx2
          simp only [List.map_cons, List.map_nil, List.mem_singleton] at hx2
          obtain ⟨r, hr, hkey⟩ := List.mem_map.mp hx
          have hnr := hfind r hr
          rw [hx2] at hkey
          have hre : r.employee_id = eid ∧ r.date = today := by
            have h1 := congrArg Prod.fst hkey
            have h2 := congrArg Prod.snd hkey
            exact ⟨h1, h2⟩
          simp [hre.1, hre.2] at hnr
      · -- check-out
        split
        · exact h
        · split
          · exact h
          · unfold attKeysNodup at h ⊢
            rw [map_updateFirst_of_preserves
              (fun x => decide (x.employee_id = eid ∧ x.date = today))
              (fun x => { x with check_out_time := some now,
                                 notes := if notes = "" then x.notes else notes })
              attKey records (fun a _ => rfl)]
            exact h
  · intro records aid h
    unfold attendance_delete
    split
    · exact h
    · exact List.Nodup.sublist
        (List.Sublist.map attKey (List.filter_sublist records)) h
  · intro records aid form h hids hcoll
    unfold attendance_edit
    split
    · exact h
    · rename_i a heq
      obtain ⟨l1, l2, hsplit, -, hupd⟩ :=
        updateFirst_of_find?_eq_some
          (fun x => { x with date := form.date,
                             check_in_time := form.check_in_time,
                             check_out_time := form.check_out_time,
                             notes := form.notes,
                             status := form.status }) heq
      have ha_mem : a ∈ records := List.mem_of_find?_eq_some heq
      have ha_id : a.attendance_id = aid := by
        simpa using List.find?_some heq
      rw [hupd]
      subst hsplit
      unfold attKeysNodup at h ⊢
      rw [List.map_append, List.map_cons, List.nodup_middle,
        List.nodup_cons] at h ⊢
      refine ⟨?_, h.2⟩
      intro hmem
      rw [← List.map_append] at hmem
      obtain ⟨b, hb, hkey⟩ := List.mem_map.mp hmem
      have hbkey : b.employee_id = a.employee_id ∧ b.date = form.date := by
        have h1 := congrArg Prod.fst hkey
        have h2 := congrArg Prod.snd hkey
        exact ⟨h1, h2⟩
      have hbid : ¬ b.attendance_id = aid := by
        intro hbid
        rw [List.map_append, List.map_cons, List.nodup_middle,
          List.nodup_cons] at hids
        apply hids.1
        rw [← List.map_append]
        exact List.mem_map.mpr ⟨b, hb, by rw [hbid, ha_id]⟩
      have hbmem : b ∈ l1 ++ a :: l2 := by
        rcases List.mem_append.mp hb with h1 | h2
        · exact List.mem_append_left _ h1
        · exact List.mem_append_right _ (List.mem_cons_of_mem _ h2)
      exact hcoll a ha_mem ha_id b hbmem hbid hbkey

/-- Witness for C4 (amended): a check-in on the empty collection, a
delete, and a date-changing edit that stays collision-free all preserve
the invariant on concrete inputs. -/
theorem attendance_unique_amended_witness :
    attKeysNodup
        (attendance_mark [] (some "Admin") none 1 "check_in" ""
          "2025-01-01" "09:00:00") ∧
    attKeysNodup
        (attendance_delete
          [⟨1, 1, "2025-01-01", some "09:00:00", none, "", "Present"⟩] 1) ∧
    attKeysNodup
        (attendance_edit
          [⟨1, 1, "2025-01-01", some "09:00:00", none, "", "Present"⟩] 1
          ⟨"2025-01-02", some "09:00:00", none, "", "Present"⟩) := by
  refine ⟨attendance_unique_amended.1 [] (some "Admin") none 1 "check_in" ""
      "2025-01-01" "09:00:00" (by decide),
    attendance_unique_amended.2.1
      [⟨1, 1, "2025-01-01", some "09:00:00", none, "", "Present"⟩] 1
      (by decide),
    attendance_unique_amended.2.2
      [⟨1, 1, "2025-01-01", some "09:00:00", none, "", "Present"⟩] 1
      ⟨"2025-01-02", some "09:00:00", none, "", "Present"⟩
      (by decide) (by decide) (by decide)⟩

end HRApp
